import Mathlib

/-!
# gitopsish-server: the OAuth handlers of `commands/root.go`

A shallow embedding of the three HTTP handlers of
`cmd/gitopsish-server/commands/root.go` (`okayish`, `callback`, `register`)
together with the pieces of the Go standard library they call
(`net/url` query encoding and parsing, `http.Redirect`, the
`http.ResponseWriter` status/body protocol), followed by theorems about them.

Go strings are byte sequences, so they are modelled as lists of bytes.
Everything that reaches outside the process (environment variables, the
provider's answers, the UUID generator) is an explicit input.
-/

namespace Gitopsish

set_option maxRecDepth 100000

/-! ## Go strings -/

/-- A byte. -/
abbrev Byte := Fin 256

/-- A Go `string`: an immutable sequence of bytes. -/
abbrev GoString := List Byte

/-- The bytes of an ASCII string literal of the source. -/
def lit (s : String) : GoString := s.toList.map (fun c => Fin.ofNat c.toNat)

/-- Byte-wise lexicographic `<` on Go strings (the order of `sort.Strings`). -/
def strLt : GoString → GoString → Bool
  | [], [] => false
  | [], _ :: _ => true
  | _ :: _, [] => false
  | a :: as, b :: bs => if a.val < b.val then true else if b.val < a.val then false else strLt as bs

/-- Insert a string into a sorted list of strings. -/
def insertSorted (k : GoString) : List GoString → List GoString
  | [] => [k]
  | x :: xs => if strLt x k then x :: insertSorted k xs else k :: x :: xs

/-- Result of `sort.Strings` on a slice of strings. -/
def sortStrings : List GoString → List GoString
  | [] => []
  | x :: xs => insertSorted x (sortStrings xs)

/-! ## `net/url`: escaping of query components -/

/-- `shouldEscape(c, encodeQueryComponent)`: everything except ASCII letters,
digits and `-`, `_`, `.`, `~` is escaped. -/
def shouldEscape (c : Byte) : Bool :=
  if (97 ≤ c.val ∧ c.val ≤ 122) ∨ (65 ≤ c.val ∧ c.val ≤ 90) ∨ (48 ≤ c.val ∧ c.val ≤ 57) then false
  else if c.val = 45 ∨ c.val = 95 ∨ c.val = 46 ∨ c.val = 126 then false
  else true

/-- The digit `"0123456789ABCDEF"[n]` used by `escape`. -/
def upperhex (n : Nat) : Byte :=
  if n < 10 then Fin.ofNat (48 + n) else Fin.ofNat (55 + n)

/-- `url.QueryEscape`: a space becomes `+`, a byte that must be escaped
becomes `%XX`, any other byte is copied. -/
def queryEscape : GoString → GoString
  | [] => []
  | c :: cs =>
    if shouldEscape c then
      if c.val = 32 then (43 : Byte) :: queryEscape cs
      else (37 : Byte) :: upperhex (c.val / 16) :: upperhex (c.val % 16) :: queryEscape cs
    else c :: queryEscape cs

/-- `ishex` of `net/url`. -/
def ishex (c : Byte) : Bool :=
  (48 ≤ c.val ∧ c.val ≤ 57) ∨ (97 ≤ c.val ∧ c.val ≤ 102) ∨ (65 ≤ c.val ∧ c.val ≤ 70)

/-- `unhex` of `net/url`. -/
def unhex (c : Byte) : Nat :=
  if 48 ≤ c.val ∧ c.val ≤ 57 then c.val - 48
  else if 97 ≤ c.val ∧ c.val ≤ 102 then c.val - 97 + 10
  else if 65 ≤ c.val ∧ c.val ≤ 70 then c.val - 65 + 10
  else 0

/-- `url.QueryUnescape`: `none` is the `EscapeError` returned when a `%` is
not followed by two hex digits; otherwise `%XX` is decoded, `+` becomes a
space and any other byte is copied. -/
def queryUnescape : GoString → Option GoString
  | [] => some []
  | c :: cs =>
    if c.val = 37 then
      match cs with
      | a :: b :: rest =>
        if ishex a ∧ ishex b then
          (queryUnescape rest).map (fun t => (Fin.ofNat (unhex a * 16 + unhex b) : Byte) :: t)
        else none
      | _ => none
    else if c.val = 43 then (queryUnescape cs).map (fun t => (32 : Byte) :: t)
    else (queryUnescape cs).map (fun t => c :: t)

/-! ## `url.Values` -/

/-- `url.Values`, a `map[string][]string`: an association list with distinct
keys. -/
abbrev Values := List (GoString × List GoString)

/-- The slice `v[key]` (empty when the key is absent). -/
def Values.getAll : Values → GoString → List GoString
  | [], _ => []
  | (k, vs) :: rest, key => if k = key then vs else Values.getAll rest key

/-- `Values.Get`: the first value of the key, or `""`. -/
def Values.get (v : Values) (key : GoString) : GoString :=
  match Values.getAll v key with
  | [] => []
  | x :: _ => x

/-- `Values.Add`: `v[key] = append(v[key], value)`. -/
def Values.add : Values → GoString → GoString → Values
  | [], key, value => [(key, [value])]
  | (k, vs) :: rest, key, value =>
    if k = key then (k, vs ++ [value]) :: rest else (k, vs) :: Values.add rest key value

/-- One step of the inner loop of `Values.Encode`: write `&` when the buffer
is not empty, then `key=value` with both sides escaped. -/
def encodeStep (keyEscaped : GoString) (buf : GoString) (value : GoString) : GoString :=
  (if buf.length > 0 then buf ++ [(38 : Byte)] else buf) ++ keyEscaped ++ [(61 : Byte)]
    ++ queryEscape value

/-- `Values.Encode`: the keys are sorted, and every value of every key is
written as `key=value`, separated by `&`. -/
def Values.encode (v : Values) : GoString :=
  (sortStrings (v.map Prod.fst)).foldl
    (fun buf k => (Values.getAll v k).foldl (encodeStep (queryEscape k)) buf) []

/-! ## `url.ParseQuery` -/

/-- Split a string at every byte satisfying `p` (`n` separators give `n + 1`
pieces). -/
def splitOn (p : Byte → Bool) : GoString → List GoString
  | [] => [[]]
  | c :: cs =>
    if p c then [] :: splitOn p cs
    else match splitOn p cs with
      | [] => [[c]]
      | x :: xs => (c :: x) :: xs

/-- `strings.Cut(s, "=")`: the parts before and after the first `=`; the
second part is empty when there is none. -/
def cutEq : GoString → GoString × GoString
  | [] => ([], [])
  | c :: cs => if c.val = 61 then ([], cs) else ((cutEq cs).1.cons c, (cutEq cs).2)

/-- The body of the loop of `parseQuery` for one piece of the query: empty
pieces are skipped; a piece whose key or value does not unescape sets the
error and is skipped; otherwise the value is appended under the key. With
`semiSep = false` (Go 1.17 and later) a piece containing `;` is an error. -/
def parsePiece (semiSep : Bool) (acc : Values × Bool) (piece : GoString) : Values × Bool :=
  if !semiSep ∧ piece.any (fun c => c.val = 59) then (acc.1, true)
  else if piece = [] then acc
  else
    match queryUnescape (cutEq piece).1 with
    | none => (acc.1, true)
    | some key =>
      match queryUnescape (cutEq piece).2 with
      | none => (acc.1, true)
      | some value => (Values.add acc.1 key value, acc.2)

/-- `url.ParseQuery`: the values parsed and whether an error was met (the
values parsed so far are returned with the error). `semiSep` selects the
behaviour of the Go release: up to Go 1.16 both `&` and `;` separate pieces,
from Go 1.17 only `&` does and a piece containing `;` is rejected. -/
def parseQuery (semiSep : Bool) (query : GoString) : Values × Bool :=
  (splitOn (fun c => c.val = 38 ∨ (semiSep ∧ c.val = 59)) query).foldl (parsePiece semiSep) ([], false)

/-! ## `net/http`: the response writer and `http.Redirect` -/

/-- The state of an `http.ResponseWriter`: the status once `WriteHeader` has
run, the header map, and the body written so far. -/
structure ResponseWriter where
  status : Option Nat
  header : List (GoString × GoString)
  body : GoString
deriving DecidableEq

/-- The writer a handler receives: nothing written yet. -/
def ResponseWriter.fresh : ResponseWriter := ⟨none, [], []⟩

/-- `w.WriteHeader(code)`: the first call fixes the status, later calls are
ignored. -/
def ResponseWriter.writeHeader (w : ResponseWriter) (code : Nat) : ResponseWriter :=
  match w.status with
  | none => { w with status := some code }
  | some _ => w

/-- `w.Write(b)`: calls `WriteHeader(200)` when no status was written, then
appends to the body. -/
def ResponseWriter.write (w : ResponseWriter) (b : GoString) : ResponseWriter :=
  let w1 := w.writeHeader 200
  { w1 with body := w1.body ++ b }

/-- Replace or insert a key of a header map. -/
def headerSet : List (GoString × GoString) → GoString → GoString → List (GoString × GoString)
  | [], k, v => [(k, v)]
  | (k1, v1) :: rest, k, v => if k1 = k then (k, v) :: rest else (k1, v1) :: headerSet rest k v

/-- Whether a header map has the key. -/
def headerHas : List (GoString × GoString) → GoString → Bool
  | [], _ => false
  | (k1, _) :: rest, k => if k1 = k then true else headerHas rest k

/-- `w.Header().Set(k, v)`: changes made after the status was written are
not part of the response. -/
def ResponseWriter.setHeader (w : ResponseWriter) (k v : GoString) : ResponseWriter :=
  match w.status with
  | none => { w with header := headerSet w.header k v }
  | some _ => w

/-- The digit `"0123456789abcdef"[n]` written by `strconv.AppendInt(_, _, 16)`. -/
def lowerhex (n : Nat) : Byte :=
  if n < 10 then Fin.ofNat (48 + n) else Fin.ofNat (87 + n)

/-- `hexEscapeNonASCII` of `net/http`: bytes from `0x80` up become `%xx`. -/
def hexEscapeNonASCII : GoString → GoString
  | [] => []
  | c :: cs =>
    if 128 ≤ c.val then (37 : Byte) :: lowerhex (c.val / 16) :: lowerhex (c.val % 16) :: hexEscapeNonASCII cs
    else c :: hexEscapeNonASCII cs

/-- `htmlEscape` of `net/http`: the replacer for `&`, `<`, `>`, `"` and the
single quote. -/
def htmlEscape : GoString → GoString
  | [] => []
  | c :: cs =>
    (if c.val = 38 then lit "&amp;"
     else if c.val = 60 then lit "&lt;"
     else if c.val = 62 then lit "&gt;"
     else if c.val = 34 then lit "&#34;"
     else if c.val = 39 then lit "&#39;"
     else [c]) ++ htmlEscape cs

/-- The entries of `http.StatusText` the handlers reach. -/
def statusText (code : Nat) : GoString :=
  if code = 303 then lit "See Other" else []

/-- An incoming request: its method and the raw query of its URL. -/
structure Request where
  method : GoString
  rawQuery : GoString
deriving DecidableEq

/-- `http.Redirect(w, r, url, code)` for a `url` that has a scheme (the only
kind `register` passes, so the relative-path rewriting does not apply): the
`Location` header is set, a `Content-Type` is added for GET and HEAD when
none was set, the status is written, and GET requests get a short HTML
body. -/
def redirect (w : ResponseWriter) (r : Request) (url : GoString) (code : Nat) : ResponseWriter :=
  let hadCT := headerHas w.header (lit "Content-Type")
  let w1 := w.setHeader (lit "Location") (hexEscapeNonASCII url)
  let w2 := if !hadCT ∧ (r.method = lit "GET" ∨ r.method = lit "HEAD")
    then w1.setHeader (lit "Content-Type") (lit "text/html; charset=utf-8") else w1
  let w3 := w2.writeHeader code
  if !hadCT ∧ r.method = lit "GET" then
    w3.write (lit "<a href=\"" ++ htmlEscape url ++ lit "\">" ++ statusText code ++ lit "</a>.\n" ++ lit "\n")
  else w3

/-- `URL.String()` of a URL parsed from `base` (scheme, host and a path that
needs no escaping) whose `RawQuery` was then set: the query follows a `?`
when it is not empty. -/
def urlString (base rawQuery : GoString) : GoString :=
  if rawQuery = [] then base else base ++ lit "?" ++ rawQuery

/-! ## The program: `commands/root.go` -/

/-- The constant `targetUser`. -/
def targetUser : GoString := lit "igaskin"

/-- The part of `github.User` the handlers use: `Login *string`. -/
structure User where
  login : Option GoString
deriving DecidableEq

/-- The struct `feelings` without its `srv` field: the two maps. -/
structure feelings where
  friendship : List (GoString × User)
  stateToCodeMap : List (GoString × GoString)
deriving DecidableEq

/-- Map assignment `m[k] = v`. -/
def mapSet : List (GoString × GoString) → GoString → GoString → List (GoString × GoString)
  | [], k, v => [(k, v)]
  | (k1, v1) :: rest, k, v => if k1 = k then (k, v) :: rest else (k1, v1) :: mapSet rest k v

/-- Whether `k` is a key of the map. -/
def mapHas : List (GoString × GoString) → GoString → Bool
  | [], _ => false
  | (k1, _) :: rest, k => if k1 = k then true else mapHas rest k

/-- What `http.DefaultClient.Do` hands back when it succeeds: the status code
and the body that `ioutil.ReadAll` reads. -/
structure HttpResponse where
  statusCode : Nat
  body : GoString
deriving DecidableEq

/-- A call that leaves the process. -/
inductive OutCall where
  | httpDo (method url : GoString)
  | isFollowing (token user target : GoString)
  | usersGet (token user : GoString)
deriving DecidableEq

/-- Everything the handlers read from outside: the two environment
variables, the query-parsing behaviour of the Go release, and the answers of
the provider. `httpDo` is `none` when the transport fails (`res == nil`);
`isFollowing` gives the boolean and whether the error is non-nil;
`usersGet` is `none` when the returned `*github.User` is nil. -/
structure Env where
  clientId : GoString
  clientSecret : GoString
  semiSep : Bool
  httpDo : GoString → GoString → Option HttpResponse
  isFollowing : GoString → GoString → GoString → Bool × Bool
  usersGet : GoString → GoString → Option User

/-- `r.URL.Query()`: the parsed raw query, errors dropped. -/
def Request.query (env : Env) (r : Request) : Values := (parseQuery env.semiSep r.rawQuery).1

/-- The run of a handler: the maps afterwards, the response writer, whether
the handler panicked (a nil pointer dereference), and the outbound calls in
order. -/
structure Result where
  f : feelings
  w : ResponseWriter
  panicked : Bool
  calls : List OutCall
deriving DecidableEq

/-- The response a client receives. -/
structure Response where
  status : Nat
  header : List (GoString × GoString)
  body : GoString
deriving DecidableEq

/-- The response of a run: none when the handler panicked (the server
recovers and closes the connection without answering); otherwise the written
status, or 200 when the handler returned without writing one. -/
def Result.response (res : Result) : Option Response :=
  if res.panicked then none
  else some ⟨res.w.status.getD 200, res.w.header, res.w.body⟩

/-- The expression `*currentUser.Login`: it has a value only when neither
pointer is nil. -/
def derefLogin (currentUser : Option User) : Option GoString :=
  match currentUser with
  | none => none
  | some u => u.login

/-- The handler `okayish`. -/
def okayish (env : Env) (f : feelings) (r : Request) : Result :=
  let w := ResponseWriter.fresh
  if Values.get (r.query env) (lit "really") = lit "true" then
    ⟨f, (w.writeHeader 401).write (lit "permission denied"), false, []⟩
  else
    ⟨f, (w.writeHeader 200).write (lit "ok"), false, []⟩

/-- The query of the token-exchange request built by `callback`. -/
def tokenQuery (env : Env) (r : Request) (code : GoString) : Values :=
  ((((Values.add [] (lit "client_id") env.clientId).add (lit "client_secret") env.clientSecret).add
    (lit "code") code).add (lit "redirect_uri") (lit "http://localhost:9999/callback")).add
    (lit "state") (Values.get (r.query env) (lit "state"))

/-- The URL of the token-exchange request built by `callback`. -/
def tokenURL (env : Env) (r : Request) (code : GoString) : GoString :=
  urlString (lit "https://github.com/login/oauth/access_token") (Values.encode (tokenQuery env r code))

/-- The handler `callback`. Log calls are left out, except that the
arguments `*currentUser.Login` are evaluated where the source evaluates
them. -/
def callback (env : Env) (f : feelings) (r : Request) : Result :=
  let w := ResponseWriter.fresh
  let code := Values.get (r.query env) (lit "code")
  if code ≠ [] then
    let url := tokenURL env r code
    let post := OutCall.httpDo (lit "POST") url
    match env.httpDo (lit "POST") url with
    | none => ⟨f, w, true, [post]⟩
    | some res =>
      let responseQuery := (parseQuery env.semiSep res.body).1
      let token := Values.get responseQuery (lit "access_token")
      if token ≠ [] then
        let isFollowing := (env.isFollowing token [] targetUser).1
        let currentUser := env.usersGet token []
        let calls := [post, OutCall.isFollowing token [] targetUser, OutCall.usersGet token []]
        if isFollowing then
          match derefLogin currentUser with
          | none => ⟨f, w, true, calls⟩
          | some _ => ⟨f, (w.writeHeader 200).write (lit "existance is torment"), false, calls⟩
        else
          let w1 := w.writeHeader 412
          match derefLogin currentUser with
          | none => ⟨f, w1, true, calls⟩
          | some login =>
            ⟨f, w1.write (login ++ lit ", please follow me first here: https://github.com/" ++ targetUser),
              false, calls⟩
      else ⟨f, w, false, [post]⟩
  else ⟨f, w, false, []⟩

/-- The query of the authorization URL built by `register`. -/
def authorizeQuery (env : Env) (state : GoString) : Values :=
  (((Values.add [] (lit "client_id") env.clientId).add (lit "redirect_uri")
    (lit "http://localhost:9999/callback")).add (lit "scope") (lit "read:user")).add (lit "state") state

/-- The handler `register`; `state` is the string `uuid.NewUUID()` returns. -/
def register (env : Env) (state : GoString) (f : feelings) (r : Request) : Result :=
  let w := ResponseWriter.fresh
  let f1 : feelings := { f with stateToCodeMap := mapSet f.stateToCodeMap state [] }
  let url := urlString (lit "https://github.com/login/oauth/authorize") (Values.encode (authorizeQuery env state))
  ⟨f1, redirect w r url 303, false, []⟩

/-- The value of a header, when set. -/
def headerGet : List (GoString × GoString) → GoString → Option GoString
  | [], _ => none
  | (k1, v1) :: rest, k => if k1 = k then some v1 else headerGet rest k

/-! ## Concrete runs

Inputs used to evaluate the handlers. The provider stub `stubExchange`
answers every token exchange with the given body. -/

/-- An empty server state. -/
def f0 : feelings := ⟨[], []⟩

/-- A provider that answers the token exchange with `body`, the follow lookup
with `fol`, and the account fetch with `user`. -/
def stubEnv (secret body : String) (fol : Bool × Bool) (user : Option User) : Env :=
  ⟨lit "TESTID", lit secret, false, fun _ _ => some ⟨200, lit body⟩, fun _ _ _ => fol, fun _ _ => user⟩

/-- A provider whose token exchange fails in transport. -/
def envNoTransport : Env :=
  ⟨lit "TESTID", lit "SECRET", false, fun _ _ => none, fun _ _ _ => (true, false),
    fun _ _ => some ⟨some (lit "alice")⟩⟩

/-- Token granted, the user follows the target, the login is `alice`. -/
def envFollows : Env := stubEnv "SECRET" "access_token=tkn&scope=read%3Auser&token_type=bearer"
  (true, false) (some ⟨some (lit "alice")⟩)

/-- As `envFollows`, with another client secret and another access token. -/
def envFollowsOther : Env := stubEnv "OTHERSECRET" "access_token=other&token_type=bearer"
  (true, false) (some ⟨some (lit "alice")⟩)

/-- Token granted, the follow lookup fails with an error, the login is `bob`. -/
def envLookupError : Env := stubEnv "SECRET" "access_token=tkn&scope=read%3Auser&token_type=bearer"
  (false, true) (some ⟨some (lit "bob")⟩)

/-- Token granted, the user follows the target, the account fetch fails. -/
def envNoAccount : Env := stubEnv "SECRET" "access_token=tkn&scope=read%3Auser&token_type=bearer"
  (true, false) none

/-- The exchange answers with a body that has neither a token nor an error. -/
def envNoToken : Env := stubEnv "SECRET" "token_type=bearer" (true, false) (some ⟨some (lit "alice")⟩)

/-- The request `GET /callback?state=unknown&code=abc`. -/
def reqUnknownState : Request := ⟨lit "GET", lit "state=unknown&code=abc"⟩

/-- The request `GET /callback?state=s1`: no code. -/
def reqNoCode : Request := ⟨lit "GET", lit "state=s1"⟩

/-- The request `GET /callback?state=s1&code=good`. -/
def reqGood : Request := ⟨lit "GET", lit "state=s1&code=good"⟩

/-- The request `GET /`. -/
def reqRoot : Request := ⟨lit "GET", []⟩

/-- The request `GET /are-you-ok?really=true`. -/
def reqReally : Request := ⟨lit "GET", lit "really=true"⟩

/-- Two runs get the same answers from the provider for the request `r`:
the token exchange fails in both or answers in both; when it answers, either
neither body carries a token, or both carry one and the follow result and the
current login are the same. -/
def sameAnswers (e1 e2 : Env) (r : Request) : Prop :=
  match e1.httpDo (lit "POST") (tokenURL e1 r (Values.get (r.query e1) (lit "code"))),
        e2.httpDo (lit "POST") (tokenURL e2 r (Values.get (r.query e2) (lit "code"))) with
  | none, none => True
  | some a, some b =>
    (Values.get (parseQuery e1.semiSep a.body).1 (lit "access_token") = [] ∧
      Values.get (parseQuery e2.semiSep b.body).1 (lit "access_token") = []) ∨
    (Values.get (parseQuery e1.semiSep a.body).1 (lit "access_token") ≠ [] ∧
      Values.get (parseQuery e2.semiSep b.body).1 (lit "access_token") ≠ [] ∧
      (e1.isFollowing (Values.get (parseQuery e1.semiSep a.body).1 (lit "access_token")) [] targetUser).1 =
        (e2.isFollowing (Values.get (parseQuery e2.semiSep b.body).1 (lit "access_token")) [] targetUser).1 ∧
      derefLogin (e1.usersGet (Values.get (parseQuery e1.semiSep a.body).1 (lit "access_token")) []) =
        derefLogin (e2.usersGet (Values.get (parseQuery e2.semiSep b.body).1 (lit "access_token")) []))
  | _, _ => False

instance (e1 e2 : Env) (r : Request) : Decidable (sameAnswers e1 e2 r) := by
  unfold sameAnswers
  split <;> infer_instance

/-- A byte that can stand in an escaped query component: ASCII and none of
`&`, `;`, `=`. -/
def safeByte (c : Byte) : Bool := c.val < 128 ∧ c.val ≠ 38 ∧ c.val ≠ 59 ∧ c.val ≠ 61

/-- One `key=value` piece as `Values.Encode` writes it. -/
def encodedPair (k v : GoString) : GoString := queryEscape k ++ (61 : Byte) :: queryEscape v

/-! ## Lemmas on the handlers -/

theorem mapHas_mapSet (m : List (GoString × GoString)) (k v : GoString) :
    mapHas (mapSet m k v) k = true := by
  induction m with
  | nil => simp [mapSet, mapHas]
  | cons x xs ih =>
    obtain ⟨k1, v1⟩ := x
    by_cases h : k1 = k
    · simp [mapSet, mapHas, h]
    · simp [mapSet, mapHas, h, ih]

theorem callback_f (env : Env) (f : feelings) (r : Request) : (callback env f r).f = f := by
  unfold callback
  simp only []
  repeat' split
  all_goals rfl

theorem callback_ledger_irrelevant (env : Env) (f g : feelings) (r : Request) :
    callback env g r = { callback env f r with f := g } := by
  unfold callback
  simp only []
  repeat' split
  all_goals rfl

theorem callback_no_code (env : Env) (f : feelings) (r : Request)
    (h : Values.get (r.query env) (lit "code") = []) :
    callback env f r = ⟨f, ResponseWriter.fresh, false, []⟩ := by
  unfold callback
  simp [h]

theorem callback_no_transport (env : Env) (f : feelings) (r : Request)
    (hcode : Values.get (r.query env) (lit "code") ≠ [])
    (hres : env.httpDo (lit "POST") (tokenURL env r (Values.get (r.query env) (lit "code"))) = none) :
    callback env f r = ⟨f, ResponseWriter.fresh, true,
      [OutCall.httpDo (lit "POST") (tokenURL env r (Values.get (r.query env) (lit "code")))]⟩ := by
  unfold callback
  simp [hcode, hres]

theorem callback_no_token (env : Env) (f : feelings) (r : Request) (res : HttpResponse)
    (hcode : Values.get (r.query env) (lit "code") ≠ [])
    (hres : env.httpDo (lit "POST") (tokenURL env r (Values.get (r.query env) (lit "code"))) = some res)
    (htok : Values.get (parseQuery env.semiSep res.body).1 (lit "access_token") = []) :
    callback env f r = ⟨f, ResponseWriter.fresh, false,
      [OutCall.httpDo (lit "POST") (tokenURL env r (Values.get (r.query env) (lit "code")))]⟩ := by
  unfold callback
  simp [hcode, hres, htok]

theorem callback_token (env : Env) (f : feelings) (r : Request) (res : HttpResponse)
    (hcode : Values.get (r.query env) (lit "code") ≠ [])
    (hres : env.httpDo (lit "POST") (tokenURL env r (Values.get (r.query env) (lit "code"))) = some res)
    (htok : Values.get (parseQuery env.semiSep res.body).1 (lit "access_token") ≠ []) :
    (callback env f r).response =
      match derefLogin (env.usersGet (Values.get (parseQuery env.semiSep res.body).1 (lit "access_token")) []) with
      | none => none
      | some login =>
        if (env.isFollowing (Values.get (parseQuery env.semiSep res.body).1 (lit "access_token")) []
            targetUser).1
        then some ⟨200, [], lit "existance is torment"⟩
        else some ⟨412, [], login ++ lit ", please follow me first here: https://github.com/" ++ targetUser⟩ := by
  unfold callback
  simp only [hcode, hres, htok, ne_eq, not_false_eq_true, if_true]
  cases hl : derefLogin (env.usersGet (Values.get (parseQuery env.semiSep res.body).1 (lit "access_token")) []) <;>
    cases hf : (env.isFollowing (Values.get (parseQuery env.semiSep res.body).1 (lit "access_token")) []
            targetUser).1 <;>
    simp [Result.response, ResponseWriter.write, ResponseWriter.writeHeader, ResponseWriter.fresh]

/-! ## The callback and the ledger -/

/-- Claim C1 as stated fails: with an empty ledger, the request
`/callback?state=unknown&code=abc` is not answered with 400; the handler
sends the token-exchange POST (and the two lookups) and answers 200. -/
theorem callback_unknown_state_not_rejected :
    mapHas f0.stateToCodeMap (Values.get (reqUnknownState.query envFollows) (lit "state")) = false ∧
    (callback envFollows f0 reqUnknownState).response = some ⟨200, [], lit "existance is torment"⟩ ∧
    (callback envFollows f0 reqUnknownState).calls =
      [OutCall.httpDo (lit "POST") (lit ("https://github.com/login/oauth/access_token?client_id=TESTID"
          ++ "&client_secret=SECRET&code=abc&redirect_uri=http%3A%2F%2Flocalhost%3A9999%2Fcallback"
          ++ "&state=unknown")),
        OutCall.isFollowing (lit "tkn") [] (lit "igaskin"), OutCall.usersGet (lit "tkn") []] := by
  decide

/-- Claim C1, amended: the callback handler does not consult the ledger. For a
request whose `state` is missing or is not a key of the ledger, response and
outbound calls are the same under any other ledger, and the response is never
400; when `code` is missing or empty nothing is sent out and nothing
is written (the client receives 200 with an empty body); when `code` is not
empty the first outbound call is the token-exchange POST carrying that
state. -/
theorem callback_state_not_checked (env : Env) (f : feelings) (r : Request)
    (_hstate : Values.getAll (r.query env) (lit "state") = [] ∨
      mapHas f.stateToCodeMap (Values.get (r.query env) (lit "state")) = false) :
    (∀ g : feelings, (callback env g r).response = (callback env f r).response ∧
      (callback env g r).calls = (callback env f r).calls) ∧
    (callback env f r).response.map (fun x => x.status) ≠ some 400 ∧
    ((Values.get (r.query env) (lit "code") = [] ∧ (callback env f r).calls = [] ∧
        (callback env f r).response = some ⟨200, [], []⟩) ∨
      (Values.get (r.query env) (lit "code") ≠ [] ∧
        (callback env f r).calls.head? =
          some (OutCall.httpDo (lit "POST") (tokenURL env r (Values.get (r.query env) (lit "code")))))) := by
  refine ⟨fun g => by rw [callback_ledger_irrelevant env f g r]; exact ⟨rfl, rfl⟩, ?_⟩
  by_cases hcode : Values.get (r.query env) (lit "code") = []
  · rw [callback_no_code env f r hcode]
    simp [Result.response, ResponseWriter.fresh, hcode]
  · cases hres : env.httpDo (lit "POST") (tokenURL env r (Values.get (r.query env) (lit "code"))) with
    | none =>
      rw [callback_no_transport env f r hcode hres]
      simp [Result.response, hcode]
    | some res =>
      by_cases htok : Values.get (parseQuery env.semiSep res.body).1 (lit "access_token") = []
      · rw [callback_no_token env f r res hcode hres htok]
        simp [Result.response, ResponseWriter.fresh, hcode]
      · refine ⟨?_, Or.inr ⟨hcode, ?_⟩⟩
        · rw [callback_token env f r res hcode hres htok]
          split
          · simp
          · split <;> simp
        · unfold callback
          simp only [hcode, hres, htok, ne_eq, not_false_eq_true, if_true]
          repeat' split
          all_goals rfl

/-- Witness for the amended claim C1: the request
`/callback?state=unknown&code=abc` on an empty ledger. -/
theorem callback_state_not_checked_witness :
    (∀ g : feelings, (callback envFollows g reqUnknownState).response =
        (callback envFollows f0 reqUnknownState).response ∧
      (callback envFollows g reqUnknownState).calls = (callback envFollows f0 reqUnknownState).calls) ∧
    (callback envFollows f0 reqUnknownState).response.map (fun x => x.status) ≠ some 400 ∧
    ((Values.get (reqUnknownState.query envFollows) (lit "code") = [] ∧
        (callback envFollows f0 reqUnknownState).calls = [] ∧
        (callback envFollows f0 reqUnknownState).response = some ⟨200, [], []⟩) ∨
      (Values.get (reqUnknownState.query envFollows) (lit "code") ≠ [] ∧
        (callback envFollows f0 reqUnknownState).calls.head? =
          some (OutCall.httpDo (lit "POST")
            (tokenURL envFollows reqUnknownState (Values.get (reqUnknownState.query envFollows) (lit "code")))))) :=
  callback_state_not_checked envFollows f0 reqUnknownState (Or.inr (by decide))

/-- Claim C2 as stated fails: after `register` issued the state `s1` and one
callback carrying it was handled, the same callback URL is answered 200 again
and the token exchange is sent again. -/
theorem callback_replay_accepted :
    (callback envFollows (callback envFollows (register envFollows (lit "s1") f0 reqRoot).f reqGood).f
      reqGood).response = some ⟨200, [], lit "existance is torment"⟩ ∧
    (callback envFollows (callback envFollows (register envFollows (lit "s1") f0 reqRoot).f reqGood).f
      reqGood).calls.head? =
      some (OutCall.httpDo (lit "POST") (lit ("https://github.com/login/oauth/access_token?client_id=TESTID"
          ++ "&client_secret=SECRET&code=good&redirect_uri=http%3A%2F%2Flocalhost%3A9999%2Fcallback"
          ++ "&state=s1"))) ∧
    mapHas (callback envFollows (register envFollows (lit "s1") f0 reqRoot).f reqGood).f.stateToCodeMap
      (lit "s1") = true := by
  decide

/-- Claim C2, amended: a state is not consumed. `register` makes the state a key
of the ledger; a callback leaves the ledger as it was, so the state is still
a key afterwards, and a later callback with the same URL and the same
provider behaviour is handled exactly like the first one. -/
theorem callback_keeps_state (env : Env) (s : GoString) (f : feelings) (r0 r : Request) :
    mapHas (register env s f r0).f.stateToCodeMap s = true ∧
    (callback env (register env s f r0).f r).f = (register env s f r0).f ∧
    mapHas (callback env (register env s f r0).f r).f.stateToCodeMap s = true ∧
    callback env (callback env (register env s f r0).f r).f r = callback env (register env s f r0).f r := by
  have h1 : mapHas (register env s f r0).f.stateToCodeMap s = true := by
    simp [register, mapHas_mapSet]
  have h2 := callback_f env (register env s f r0).f r
  refine ⟨h1, h2, ?_, ?_⟩
  · rw [h2]; exact h1
  · rw [h2]

/-! ## The follow lookup -/

/-- Claim C4 as stated fails: when the follow lookup returns an error the
response is 412 with the invitation, not 502. -/
theorem callback_lookup_error_is_412 :
    (envLookupError.isFollowing (lit "tkn") [] targetUser).2 = true ∧
    (callback envLookupError f0 reqGood).response =
      some ⟨412, [], lit "bob, please follow me first here: https://github.com/igaskin"⟩ := by
  decide

/-- Claim C4, amended: for a callback that obtained a non-empty access token and
whose account fetch returned a login, the status is decided by the boolean of
the follow lookup alone: 200 with the fixed body when it is true, 412 with
the invitation when it is false, whether or not the lookup also returned an
error. -/
theorem callback_status_by_lookup (env : Env) (f : feelings) (r : Request) (res : HttpResponse)
    (login : GoString)
    (hcode : Values.get (r.query env) (lit "code") ≠ [])
    (hres : env.httpDo (lit "POST") (tokenURL env r (Values.get (r.query env) (lit "code"))) = some res)
    (htok : Values.get (parseQuery env.semiSep res.body).1 (lit "access_token") ≠ [])
    (hlogin : derefLogin (env.usersGet (Values.get (parseQuery env.semiSep res.body).1 (lit "access_token")) [])
      = some login) :
    (callback env f r).response =
      if (env.isFollowing (Values.get (parseQuery env.semiSep res.body).1 (lit "access_token")) []
          targetUser).1
      then some ⟨200, [], lit "existance is torment"⟩
      else some ⟨412, [], login ++ lit ", please follow me first here: https://github.com/" ++ targetUser⟩ := by
  rw [callback_token env f r res hcode hres htok, hlogin]

/-- Witness for the amended claim C4: the lookup errs, the login is
`bob`. -/
theorem callback_status_by_lookup_witness :
    (callback envLookupError f0 reqGood).response =
      if (envLookupError.isFollowing
          (Values.get (parseQuery envLookupError.semiSep
            (⟨200, lit "access_token=tkn&scope=read%3Auser&token_type=bearer"⟩ : HttpResponse).body).1
            (lit "access_token")) [] targetUser).1
      then some ⟨200, [], lit "existance is torment"⟩
      else some ⟨412, [], lit "bob" ++ lit ", please follow me first here: https://github.com/" ++ targetUser⟩ :=
  callback_status_by_lookup envLookupError f0 reqGood
    ⟨200, lit "access_token=tkn&scope=read%3Auser&token_type=bearer"⟩ (lit "bob")
    (by decide) (by decide) (by decide) (by decide)

/-! ## Failures of the token exchange and missing codes -/

/-- Claim C5 as stated fails: when the exchange answers with a body that has
neither `access_token` nor `error`, the handler writes nothing, so the
client receives 200 with an empty body, not 502. -/
theorem callback_no_token_not_502 :
    Values.get (reqGood.query envNoToken) (lit "code") = lit "good" ∧
    Values.get (parseQuery false (lit "token_type=bearer")).1 (lit "access_token") = [] ∧
    Values.getAll (parseQuery false (lit "token_type=bearer")).1 (lit "error") = [] ∧
    (callback envNoToken f0 reqGood).response = some ⟨200, [], []⟩ := by
  decide

/-- Claim C5, amended: for a callback with a non-empty code whose token exchange
returns a response whose body has no non-empty `access_token` and no `error`
key, the handler writes neither status nor body (the client receives 200 with
an empty body) and the token-exchange POST is its only outbound call: no
follow lookup is made. -/
theorem callback_exchange_without_token (env : Env) (f : feelings) (r : Request) (res : HttpResponse)
    (hcode : Values.get (r.query env) (lit "code") ≠ [])
    (hres : env.httpDo (lit "POST") (tokenURL env r (Values.get (r.query env) (lit "code"))) = some res)
    (htok : Values.get (parseQuery env.semiSep res.body).1 (lit "access_token") = [])
    (_herr : Values.getAll (parseQuery env.semiSep res.body).1 (lit "error") = []) :
    (callback env f r).response = some ⟨200, [], []⟩ ∧
    (callback env f r).calls =
      [OutCall.httpDo (lit "POST") (tokenURL env r (Values.get (r.query env) (lit "code")))] := by
  rw [callback_no_token env f r res hcode hres htok]
  simp [Result.response, ResponseWriter.fresh]

/-- Witness for the amended claim C5: the exchange answers
`token_type=bearer`. -/
theorem callback_exchange_without_token_witness :
    (callback envNoToken f0 reqGood).response = some ⟨200, [], []⟩ ∧
    (callback envNoToken f0 reqGood).calls =
      [OutCall.httpDo (lit "POST")
        (tokenURL envNoToken reqGood (Values.get (reqGood.query envNoToken) (lit "code")))] :=
  callback_exchange_without_token envNoToken f0 reqGood ⟨200, lit "token_type=bearer"⟩
    (by decide) (by decide) (by decide) (by decide)

/-- Claim C6 as stated fails: the request `/callback?state=s1`, which has no
code, is not answered with 400; the handler writes nothing and the client
receives 200 with an empty body. -/
theorem callback_missing_code_not_400 :
    Values.getAll (reqNoCode.query envFollows) (lit "code") = [] ∧
    (callback envFollows f0 reqNoCode).response = some ⟨200, [], []⟩ := by
  decide

/-- Claim C6, amended: for a callback whose `code` is missing or empty the handler
writes neither status nor body (the client receives 200 with an empty body),
makes no outbound call at all, and leaves the server state as it was. -/
theorem callback_missing_code (env : Env) (f : feelings) (r : Request)
    (hcode : Values.get (r.query env) (lit "code") = []) :
    (callback env f r).response = some ⟨200, [], []⟩ ∧ (callback env f r).calls = [] ∧
    (callback env f r).f = f := by
  rw [callback_no_code env f r hcode]
  simp [Result.response, ResponseWriter.fresh]

/-- Witness for the amended claim C6: the request `/callback?state=s1`. -/
theorem callback_missing_code_witness :
    (callback envFollows f0 reqNoCode).response = some ⟨200, [], []⟩ ∧
    (callback envFollows f0 reqNoCode).calls = [] ∧ (callback envFollows f0 reqNoCode).f = f0 :=
  callback_missing_code envFollows f0 reqNoCode (by decide)

/-! ## The probe -/

/-- Claim C7: `okayish` answers 401 `permission denied` when the first value of
`really` is exactly `true` and 200 `ok` otherwise; it makes no outbound call,
leaves the server state unchanged and its result does not depend on the
server state, so identical requests get identical responses. -/
theorem okayish_spec (env : Env) (f : feelings) (r : Request) :
    (okayish env f r).response =
      (if Values.get (r.query env) (lit "really") = lit "true"
        then some ⟨401, [], lit "permission denied"⟩ else some ⟨200, [], lit "ok"⟩) ∧
    (okayish env f r).f = f ∧ (okayish env f r).calls = [] ∧
    (∀ g : feelings, (okayish env g r).response = (okayish env f r).response) ∧
    (okayish env (okayish env f r).f r).response = (okayish env f r).response := by
  unfold okayish
  by_cases h : Values.get (r.query env) (lit "really") = lit "true" <;>
    simp [h, Result.response, ResponseWriter.write, ResponseWriter.writeHeader, ResponseWriter.fresh]

/-! ## Nil dereferences -/

/-- Claim C8 at a failing input: when the transport of the token exchange fails,
`res` is nil and `res.Body` panics; the handler does not complete and no
response is produced. -/
theorem callback_panics_without_transport :
    (callback envNoTransport f0 reqGood).panicked = true ∧
    (callback envNoTransport f0 reqGood).response = none := by
  decide

/-- Claim C9 at a failing input: the token is granted and the user follows the
target, but the account fetch returns no user; `*currentUser.Login` panics
before anything is written and no response is produced. -/
theorem callback_panics_without_account :
    (callback envNoAccount f0 reqGood).panicked = true ∧
    (callback envNoAccount f0 reqGood).w = ResponseWriter.fresh ∧
    (callback envNoAccount f0 reqGood).response = none := by
  decide

/-! ## Secrets -/

/-- Claim C10: neither the client secret nor the access token reaches the user.
Two runs that share the client id and the query parsing, with any two client
secrets and with the same answers from the provider (any two non-empty
tokens), give the same response to `register` and the same response to
`callback`: status, headers and body. -/
theorem response_hides_secret_and_token (e1 e2 : Env) (s : GoString) (f : feelings) (r : Request)
    (hid : e1.clientId = e2.clientId) (hsemi : e1.semiSep = e2.semiSep)
    (hans : sameAnswers e1 e2 r) :
    (register e1 s f r).response = (register e2 s f r).response ∧
    (callback e1 f r).response = (callback e2 f r).response := by
  constructor
  · simp [register, authorizeQuery, hid]
  · have hq : r.query e1 = r.query e2 := by simp [Request.query, hsemi]
    by_cases hcode : Values.get (r.query e2) (lit "code") = []
    · rw [callback_no_code e1 f r (hq ▸ hcode), callback_no_code e2 f r hcode]
    · have hcode1 : Values.get (r.query e1) (lit "code") ≠ [] := hq ▸ hcode
      unfold sameAnswers at hans
      split at hans
      · next h1 h2 =>
        rw [callback_no_transport e1 f r hcode1 h1, callback_no_transport e2 f r hcode h2]
        simp [Result.response]
      · next a b h1 h2 =>
        rcases hans with ⟨t1, t2⟩ | ⟨t1, t2, hfol, hlog⟩
        · rw [callback_no_token e1 f r a hcode1 h1 t1, callback_no_token e2 f r b hcode h2 t2]
          simp [Result.response]
        · rw [callback_token e1 f r a hcode1 h1 t1, callback_token e2 f r b hcode h2 t2, hfol, hlog]
      · exact hans.elim

/-- Witness for claim C10: two runs with different
client secrets and different access tokens. -/
theorem response_hides_secret_and_token_witness :
    sameAnswers envFollows envFollowsOther reqGood ∧
    (register envFollows (lit "s1") f0 reqGood).response =
      (register envFollowsOther (lit "s1") f0 reqGood).response ∧
    (callback envFollows f0 reqGood).response = (callback envFollowsOther f0 reqGood).response :=
  ⟨by decide, response_hides_secret_and_token envFollows envFollowsOther (lit "s1") f0 reqGood
    (by decide) (by decide) (by decide)⟩

/-! ## Query escaping round trip -/

theorem hexdigits_roundtrip : ∀ c : Byte,
    ishex (upperhex (c.val / 16)) = true ∧ ishex (upperhex (c.val % 16)) = true ∧
    (Fin.ofNat (unhex (upperhex (c.val / 16)) * 16 + unhex (upperhex (c.val % 16))) : Byte) = c ∧
    safeByte (upperhex (c.val / 16)) = true ∧ safeByte (upperhex (c.val % 16)) = true := by
  decide

theorem unescaped_plain : ∀ c : Byte, shouldEscape c = false →
    c.val ≠ 37 ∧ c.val ≠ 43 ∧ safeByte c = true := by
  decide

theorem queryEscape_cons (a : Byte) (as : GoString) :
    queryEscape (a :: as) =
      if shouldEscape a then
        if a.val = 32 then (43 : Byte) :: queryEscape as
        else (37 : Byte) :: upperhex (a.val / 16) :: upperhex (a.val % 16) :: queryEscape as
      else a :: queryEscape as := by
  rw [queryEscape]

theorem val_37 : ((37 : Byte) : Nat) = 37 := rfl

theorem val_43 : ((43 : Byte) : Nat) = 43 := rfl

theorem queryUnescape_plus (cs : GoString) :
    queryUnescape ((43 : Byte) :: cs) = (queryUnescape cs).map (fun t => (32 : Byte) :: t) := by
  conv => lhs; unfold queryUnescape
  simp [val_43]

theorem queryUnescape_percent (a b : Byte) (rest : GoString) (ha : ishex a = true) (hb : ishex b = true) :
    queryUnescape ((37 : Byte) :: a :: b :: rest) =
      (queryUnescape rest).map (fun t => (Fin.ofNat (unhex a * 16 + unhex b) : Byte) :: t) := by
  conv => lhs; unfold queryUnescape
  simp [val_37, ha, hb]

theorem queryUnescape_plain (c : Byte) (cs : GoString) (h37 : c.val ≠ 37) (h43 : c.val ≠ 43) :
    queryUnescape (c :: cs) = (queryUnescape cs).map (fun t => c :: t) := by
  conv => lhs; unfold queryUnescape
  simp [h37, h43]

theorem queryEscape_safe (x : GoString) : ∀ c ∈ queryEscape x, safeByte c = true := by
  induction x with
  | nil => simp [queryEscape]
  | cons a as ih =>
    intro c hc
    rw [queryEscape_cons] at hc
    by_cases h : shouldEscape a = true
    · by_cases h32 : a.val = 32
      · rw [if_pos h, if_pos h32, List.mem_cons] at hc
        rcases hc with rfl | hc
        · decide
        · exact ih c hc
      · rw [if_pos h, if_neg h32] at hc
        simp only [List.mem_cons] at hc
        rcases hc with rfl | rfl | rfl | hc
        · decide
        · exact (hexdigits_roundtrip a).2.2.2.1
        · exact (hexdigits_roundtrip a).2.2.2.2
        · exact ih c hc
    · rw [if_neg h, List.mem_cons] at hc
      rcases hc with rfl | hc
      · exact (unescaped_plain c (by simpa using h)).2.2
      · exact ih c hc

theorem queryUnescape_queryEscape (x : GoString) : queryUnescape (queryEscape x) = some x := by
  induction x with
  | nil => simp [queryEscape, queryUnescape]
  | cons a as ih =>
    rw [queryEscape_cons]
    by_cases h : shouldEscape a = true
    · by_cases h32 : a.val = 32
      · have ha : a = (32 : Byte) := Fin.ext h32
        rw [if_pos h, if_pos h32, queryUnescape_plus, ih, ha]
        rfl
      · obtain ⟨h1, h2, h3, -, -⟩ := hexdigits_roundtrip a
        rw [if_pos h, if_neg h32, queryUnescape_percent _ _ _ h1 h2, ih, h3]
        rfl
    · have hp := unescaped_plain a (by simpa using h)
      rw [if_neg h, queryUnescape_plain _ _ hp.1 hp.2.1, ih]
      rfl

/-! ## Parsing an encoded query -/

theorem splitOn_no_sep (p : Byte → Bool) (a : GoString) (ha : ∀ c ∈ a, p c = false) :
    splitOn p a = [a] := by
  induction a with
  | nil => simp [splitOn]
  | cons c cs ih =>
    have hc : p c = false := ha c (List.mem_cons_self _ _)
    have hcs := ih (fun d hd => ha d (List.mem_cons_of_mem _ hd))
    rw [splitOn]
    simp [hc, hcs]

theorem splitOn_append_sep (p : Byte → Bool) (a rest : GoString) (sep : Byte)
    (ha : ∀ c ∈ a, p c = false) (hs : p sep = true) :
    splitOn p (a ++ sep :: rest) = a :: splitOn p rest := by
  induction a with
  | nil =>
    rw [List.nil_append, splitOn]
    simp [hs]
  | cons c cs ih =>
    have hc : p c = false := ha c (List.mem_cons_self _ _)
    have hcs := ih (fun d hd => ha d (List.mem_cons_of_mem _ hd))
    rw [List.cons_append, splitOn]
    simp [hc, hcs]

theorem cutEq_append (a b : GoString) (ha : ∀ c ∈ a, c.val ≠ 61) :
    cutEq (a ++ (61 : Byte) :: b) = (a, b) := by
  induction a with
  | nil =>
    rw [List.nil_append, cutEq]
    rfl
  | cons c cs ih =>
    have hc : c.val ≠ 61 := ha c (List.mem_cons_self _ _)
    have hcs := ih (fun d hd => ha d (List.mem_cons_of_mem _ hd))
    rw [List.cons_append, cutEq]
    simp [hc, hcs]

theorem encodedPair_safe (k v : GoString) (b : Bool) :
    ∀ c ∈ encodedPair k v, (decide (c.val = 38 ∨ ((b = true) ∧ c.val = 59))) = false := by
  intro c hc
  unfold encodedPair at hc
  rw [List.mem_append, List.mem_cons] at hc
  have hsafe : c.val ≠ 38 ∧ c.val ≠ 59 := by
    rcases hc with h | rfl | h
    · have := queryEscape_safe k c h
      simp [safeByte] at this
      exact ⟨this.2.1, this.2.2.1⟩
    · decide
    · have := queryEscape_safe v c h
      simp [safeByte] at this
      exact ⟨this.2.1, this.2.2.1⟩
  simp [hsafe.1, hsafe.2]

theorem parsePiece_encodedPair (b : Bool) (acc : Values × Bool) (k v : GoString) :
    parsePiece b acc (encodedPair k v) = (Values.add acc.1 k v, acc.2) := by
  have hsemi : (encodedPair k v).any (fun c => decide (c.val = 59)) = false := by
    rw [List.any_eq_false]
    intro c hc
    have := encodedPair_safe k v true c hc
    simpa using fun h => (by simp [h] at this : False)
  have hne : encodedPair k v ≠ [] := by simp [encodedPair]
  have hcut : cutEq (encodedPair k v) = (queryEscape k, queryEscape v) := by
    unfold encodedPair
    apply cutEq_append
    intro c hc
    have := queryEscape_safe k c hc
    simp [safeByte] at this
    exact this.2.2.2
  unfold parsePiece
  simp [hsemi, hne, hcut, queryUnescape_queryEscape]

/-! ## The authorization redirect -/

theorem authorizeQuery_eq (env : Env) (state : GoString) :
    authorizeQuery env state =
      [(lit "client_id", [env.clientId]), (lit "redirect_uri", [lit "http://localhost:9999/callback"]),
        (lit "scope", [lit "read:user"]), (lit "state", [state])] := by
  have h1 : lit "client_id" ≠ lit "redirect_uri" := by decide
  have h2 : lit "client_id" ≠ lit "scope" := by decide
  have h3 : lit "client_id" ≠ lit "state" := by decide
  have h4 : lit "redirect_uri" ≠ lit "scope" := by decide
  have h5 : lit "redirect_uri" ≠ lit "state" := by decide
  have h6 : lit "scope" ≠ lit "state" := by decide
  simp [authorizeQuery, Values.add, h1, h2, h3, h4, h5, h6]

theorem encodeStep_nil (k v : GoString) : encodeStep (queryEscape k) [] v = encodedPair k v := by
  simp [encodeStep, encodedPair]

theorem encodeStep_append (k v buf : GoString) (c : Byte) :
    encodeStep (queryEscape k) (c :: buf) v = (c :: buf) ++ (38 : Byte) :: encodedPair k v := by
  simp [encodeStep, encodedPair]

theorem encodedPair_cons (k v : GoString) :
    ∃ c rest, encodedPair k v = c :: rest := by
  unfold encodedPair
  cases queryEscape k with
  | nil => exact ⟨_, _, rfl⟩
  | cons c cs => exact ⟨c, _, rfl⟩

theorem encode_authorizeQuery (env : Env) (state : GoString) :
    Values.encode (authorizeQuery env state) =
      encodedPair (lit "client_id") env.clientId ++ (38 : Byte) ::
        (encodedPair (lit "redirect_uri") (lit "http://localhost:9999/callback") ++ (38 : Byte) ::
          (encodedPair (lit "scope") (lit "read:user") ++ (38 : Byte) ::
            encodedPair (lit "state") state)) := by
  have hsort : sortStrings [lit "client_id", lit "redirect_uri", lit "scope", lit "state"] =
      [lit "client_id", lit "redirect_uri", lit "scope", lit "state"] := by decide
  have h1 : lit "client_id" ≠ lit "redirect_uri" := by decide
  have h2 : lit "client_id" ≠ lit "scope" := by decide
  have h3 : lit "client_id" ≠ lit "state" := by decide
  have h4 : lit "redirect_uri" ≠ lit "scope" := by decide
  have h5 : lit "redirect_uri" ≠ lit "state" := by decide
  have h6 : lit "scope" ≠ lit "state" := by decide
  rw [authorizeQuery_eq]
  unfold Values.encode
  simp only [List.map, hsort, List.foldl, Values.getAll, if_true, h1, h2, h3, h4, h5, h6, if_false]
  rw [encodeStep_nil]
  obtain ⟨c, rest, hc⟩ := encodedPair_cons (lit "client_id") env.clientId
  rw [hc, encodeStep_append]
  rw [List.cons_append, encodeStep_append]
  rw [List.cons_append, encodeStep_append]
  simp

theorem authorize_literal (c s : GoString) :
    encodedPair (lit "client_id") c ++ (38 : Byte) ::
        (encodedPair (lit "redirect_uri") (lit "http://localhost:9999/callback") ++ (38 : Byte) ::
          (encodedPair (lit "scope") (lit "read:user") ++ (38 : Byte) ::
            encodedPair (lit "state") s)) =
      lit "client_id=" ++ queryEscape c ++
        lit "&redirect_uri=http%3A%2F%2Flocalhost%3A9999%2Fcallback&scope=read%3Auser&state=" ++
        queryEscape s := by
  have e1 : queryEscape (lit "client_id") ++ [(61 : Byte)] = lit "client_id=" := by decide
  have e2 : (38 : Byte) :: (encodedPair (lit "redirect_uri") (lit "http://localhost:9999/callback") ++
      (38 : Byte) :: (encodedPair (lit "scope") (lit "read:user") ++ (38 : Byte) ::
        (queryEscape (lit "state") ++ [(61 : Byte)]))) =
      lit "&redirect_uri=http%3A%2F%2Flocalhost%3A9999%2Fcallback&scope=read%3Auser&state=" := by decide
  rw [← e1, ← e2]
  simp [encodedPair]

theorem encode_authorize_query_literal (env : Env) (state : GoString) :
    Values.encode (authorizeQuery env state) =
      lit "client_id=" ++ queryEscape env.clientId ++
        lit "&redirect_uri=http%3A%2F%2Flocalhost%3A9999%2Fcallback&scope=read%3Auser&state=" ++
        queryEscape state := by
  rw [encode_authorizeQuery, authorize_literal]

theorem hexEscapeNonASCII_ascii (x : GoString) (h : ∀ c ∈ x, c.val < 128) :
    hexEscapeNonASCII x = x := by
  induction x with
  | nil => rfl
  | cons c cs ih =>
    have hc : ¬ 128 ≤ c.val := Nat.not_le.mpr (h c (List.mem_cons_self _ _))
    rw [hexEscapeNonASCII, if_neg hc, ih (fun d hd => h d (List.mem_cons_of_mem _ hd))]

theorem queryEscape_ascii (x : GoString) : ∀ c ∈ queryEscape x, c.val < 128 := by
  intro c hc
  have := queryEscape_safe x c hc
  simp [safeByte] at this
  exact this.1

theorem parseQuery_authorize (b : Bool) (c s : GoString) :
    parseQuery b (encodedPair (lit "client_id") c ++ (38 : Byte) ::
        (encodedPair (lit "redirect_uri") (lit "http://localhost:9999/callback") ++ (38 : Byte) ::
          (encodedPair (lit "scope") (lit "read:user") ++ (38 : Byte) ::
            encodedPair (lit "state") s))) =
      ([(lit "client_id", [c]), (lit "redirect_uri", [lit "http://localhost:9999/callback"]),
        (lit "scope", [lit "read:user"]), (lit "state", [s])], false) := by
  have hsep : (decide (((38 : Byte) : Nat) = 38 ∨ ((b = true) ∧ ((38 : Byte) : Nat) = 59))) = true :=
    decide_eq_true (Or.inl rfl)
  have h1 : lit "client_id" ≠ lit "redirect_uri" := by decide
  have h2 : lit "client_id" ≠ lit "scope" := by decide
  have h3 : lit "client_id" ≠ lit "state" := by decide
  have h4 : lit "redirect_uri" ≠ lit "scope" := by decide
  have h5 : lit "redirect_uri" ≠ lit "state" := by decide
  have h6 : lit "scope" ≠ lit "state" := by decide
  unfold parseQuery
  rw [splitOn_append_sep _ _ _ _ (encodedPair_safe _ _ b) hsep,
    splitOn_append_sep _ _ _ _ (encodedPair_safe _ _ b) hsep,
    splitOn_append_sep _ _ _ _ (encodedPair_safe _ _ b) hsep,
    splitOn_no_sep _ _ (encodedPair_safe _ _ b)]
  simp only [List.foldl, parsePiece_encodedPair]
  simp [Values.add, h1, h2, h3, h4, h5, h6]

theorem authorize_url_ascii (c s : GoString) :
    ∀ x ∈ lit "https://github.com/login/oauth/authorize" ++ lit "?" ++
      (lit "client_id=" ++ queryEscape c ++
        lit "&redirect_uri=http%3A%2F%2Flocalhost%3A9999%2Fcallback&scope=read%3Auser&state=" ++
        queryEscape s), x.val < 128 := by
  have l1 : ∀ x ∈ lit "https://github.com/login/oauth/authorize", x.val < 128 := by decide
  have l2 : ∀ x ∈ lit "?", x.val < 128 := by decide
  have l3 : ∀ x ∈ lit "client_id=", x.val < 128 := by decide
  have l4 : ∀ x ∈ lit "&redirect_uri=http%3A%2F%2Flocalhost%3A9999%2Fcallback&scope=read%3Auser&state=",
      x.val < 128 := by decide
  intro x hx
  simp only [List.mem_append] at hx
  rcases hx with (hx | hx) | ((hx | hx) | hx) | hx
  · exact l1 x hx
  · exact l2 x hx
  · exact l3 x hx
  · exact queryEscape_ascii c x hx
  · exact l4 x hx
  · exact queryEscape_ascii s x hx

theorem redirect_fresh (r : Request) (url : GoString) (code : Nat) :
    (redirect ResponseWriter.fresh r url code).status = some code ∧
    headerGet (redirect ResponseWriter.fresh r url code).header (lit "Location") =
      some (hexEscapeNonASCII url) := by
  have hLC : lit "Location" ≠ lit "Content-Type" := by decide
  have hGH : lit "GET" ≠ lit "HEAD" := by decide
  have hCT : headerHas ([] : List (GoString × GoString)) (lit "Content-Type") = false := rfl
  unfold redirect
  simp only [ResponseWriter.fresh, hCT]
  by_cases hg : r.method = lit "GET"
  · simp [hg, hGH, ResponseWriter.setHeader, ResponseWriter.writeHeader, ResponseWriter.write,
      headerSet, headerGet, hLC]
  · by_cases hh : r.method = lit "HEAD"
    · simp [hh, hGH.symm, ResponseWriter.setHeader, ResponseWriter.writeHeader, ResponseWriter.write,
        headerSet, headerGet, hLC]
    · simp [hg, hh, ResponseWriter.setHeader, ResponseWriter.writeHeader, ResponseWriter.write,
        headerSet, headerGet]

/-- Claim C3: `register` answers 303 with the `Location`
`https://github.com/login/oauth/authorize?client_id=c&redirect_uri=...&scope=read%3Auser&state=s`
(`c` and `s` query-escaped); the query of that URL parses, without error, to
exactly the four parameters `client_id = c`, `redirect_uri =
http://localhost:9999/callback`, `scope = read:user`, `state = s`; and the
handler makes no outbound call. -/
theorem register_redirects_to_authorize (env : Env) (state : GoString) (f : feelings) (r : Request)
    (b : Bool) :
    (register env state f r).response.map (fun x => x.status) = some 303 ∧
    (register env state f r).response.bind (fun x => headerGet x.header (lit "Location")) =
      some (lit "https://github.com/login/oauth/authorize" ++ lit "?" ++
        (lit "client_id=" ++ queryEscape env.clientId ++
          lit "&redirect_uri=http%3A%2F%2Flocalhost%3A9999%2Fcallback&scope=read%3Auser&state=" ++
          queryEscape state)) ∧
    parseQuery b (lit "client_id=" ++ queryEscape env.clientId ++
        lit "&redirect_uri=http%3A%2F%2Flocalhost%3A9999%2Fcallback&scope=read%3Auser&state=" ++
        queryEscape state) =
      ([(lit "client_id", [env.clientId]), (lit "redirect_uri", [lit "http://localhost:9999/callback"]),
        (lit "scope", [lit "read:user"]), (lit "state", [state])], false) ∧
    (register env state f r).calls = [] := by
  have hne : lit "client_id=" ++ queryEscape env.clientId ++
      lit "&redirect_uri=http%3A%2F%2Flocalhost%3A9999%2Fcallback&scope=read%3Auser&state=" ++
      queryEscape state ≠ [] := by
    have : lit "client_id=" ≠ [] := by decide
    simp [this]
  refine ⟨?_, ?_, ?_, rfl⟩
  · simp [register, Result.response, (redirect_fresh r _ 303).1]
  · have hloc := (redirect_fresh r (urlString (lit "https://github.com/login/oauth/authorize")
      (Values.encode (authorizeQuery env state))) 303).2
    rw [encode_authorize_query_literal env state, urlString, if_neg hne,
      hexEscapeNonASCII_ascii _ (authorize_url_ascii env.clientId state)] at hloc
    simp only [register, Result.response, Bool.false_eq_true, if_false, Option.some_bind]
    rw [encode_authorize_query_literal env state, urlString, if_neg hne]
    exact hloc
  · rw [← authorize_literal, parseQuery_authorize]

end Gitopsish
